import Mathlib

/-!
Verification of the INF80057 assistant backend (`backend/main.py`).

The development shallowly embeds the two pure cores of the service — the
answer resolver behind the `/answer` endpoint and the schedule lookup behind
`/next` — together with the kill-switch gate and the `/health` probe.

Modelling conventions:
* Python strings are Lean `String`s; `lower`/`strip`/`split`/substring tests
  are re-implemented over the character list (ASCII case folding and ASCII
  whitespace, which covers every keyword and message the code uses).
* A document is JSON-shaped: `title`, `href` and a `sections` list are
  present (the data-model shape), while a section's `text` may be absent,
  mirroring the code's `sec.get("text", "")`.  A section's `loc` is a plain
  string (the data-model shape; the code reads it via `sec["loc"]` and
  `sec.get("loc", "")`).
* `resolve` returns `Option AnswerResult`: `none` models an uncaught Python
  exception (the `DOCS[0]["sections"][0]` IndexError path), `some r` a
  normal response.
* The gated endpoints return `Except GateError _`, whose only error is the
  503 "Assistant paused by staff" signal raised before any data access.
-/

namespace Assistant

/-- Python's `needle.isPrefix-like` test: the first list starts the second
(character-wise equality). -/
def leadsList : List Char → List Char → Bool
  | [], _ => true
  | _ :: _, [] => false
  | a :: as, b :: bs => a == b && leadsList as bs

/-- `occursIn needle hay` is Python's `needle in hay` over character lists:
`needle` occurs contiguously inside `hay`. -/
def occursIn (needle : List Char) : List Char → Bool
  | [] => needle.isEmpty
  | c :: cs => leadsList needle (c :: cs) || occursIn needle cs

/-- Python's substring containment `needle in hay` on strings. -/
def strContains (hay needle : String) : Bool :=
  occursIn needle.data hay.data

/-- Python's `str.lower()` (ASCII case folding, as in every string the
program manipulates). -/
def lowerStr (s : String) : String :=
  String.mk (s.data.map Char.toLower)

/-- Python's `str.strip()`: drop leading and trailing whitespace. -/
def trimStr (s : String) : String :=
  String.mk (((s.data.dropWhile Char.isWhitespace).reverse.dropWhile
    Char.isWhitespace).reverse)

/-- `q = req.question.lower().strip()` in `answer`. -/
def normalize (q : String) : String := trimStr (lowerStr q)

/-- `q.replace("?", " ")`: every `?` becomes a space (single-character
pattern, so a character map). -/
def deQ (q : String) : String :=
  String.mk (q.data.map (fun c => if c == '?' then ' ' else c))

/-- Python's argumentless `str.split()`: whitespace-separated tokens, no
empties.  `acc` holds the current token reversed. -/
def tokensAux : List Char → List Char → List String
  | acc, [] => if acc.isEmpty then [] else [String.mk acc.reverse]
  | acc, c :: cs =>
    if c.isWhitespace then
      if acc.isEmpty then tokensAux [] cs
      else String.mk acc.reverse :: tokensAux [] cs
    else tokensAux (c :: acc) cs

/-- `q_words = [w for w in q.replace("?", " ").split() if len(w) >= 4]`. -/
def qWords (q : String) : List String :=
  (tokensAux [] (deQ q).data).filter (fun w => decide (4 ≤ w.length))

/-- The fixed keyword list of the deterministic pass. -/
def keywords : List String :=
  ["task 1", "week 4", "proposal", "planning document", "due"]

/-- `any(k in q for k in keywords)`. -/
def keywordHit (q : String) : Bool :=
  keywords.any (fun k => strContains q k)

/-- A corpus section: `loc` is the location label (always present in the
data model), `text` the body, absent when the JSON object lacks the key. -/
structure Sec where
  loc : String
  text : Option String
deriving DecidableEq

/-- A corpus document: `title`, `href` and the ordered `sections`. -/
structure Doc where
  title : String
  href : String
  sections : List Sec
deriving DecidableEq

/-- One citation entry `{"title": _, "href": _, "loc": _}`. -/
structure Citation where
  title : String
  href : String
  loc : String
deriving DecidableEq

/-- The `AnswerResponse` model. -/
structure AnswerResult where
  answer : String
  citations : List Citation
  socratic_prompts : List String
  refusal : Bool
deriving DecidableEq

/-- The hard-coded pass-1 answer. -/
def keywordAnswer : String :=
  "Task 1 Part 1 is due in Week 4. It includes the Project Proposal and Planning Document."

/-- The fixed pass-1 Socratic prompt. -/
def keywordPrompt : String :=
  "Which client constraints affect your scope before Week 4?"

/-- The fixed pass-2 Socratic prompt. -/
def fallbackPrompt : String :=
  "What evidence from the assessment guide supports your plan?"

/-- The pass-2 default used when a section has no `text` key. -/
def defaultAnswer : String := "I can only answer from authorised files."

/-- The fixed refusal message. -/
def refusalAnswer : String :=
  "I can’t answer that from the unit’s authorised files. Try the Assessment Guide v1.0, Section 1."

/-- `text = sec.get("text", "").lower()` then
`any(w in text for w in q_words)`. -/
def secMatches (ws : List String) (s : Sec) : Bool :=
  ws.any (fun w => strContains (lowerStr (s.text.getD "")) w)

/-- The body of the keyword pass once its guard holds:
`doc = DOCS[0]; sec = doc["sections"][0]; return AnswerResponse(...)`.
`none` models the IndexError raised when the first document has no
sections (and the unreachable empty-corpus case, excluded by the guard). -/
def pass1 (docs : List Doc) : Option AnswerResult :=
  match docs with
  | [] => none
  | d :: _ =>
    match d.sections with
    | [] => none
    | s :: _ =>
      some ⟨keywordAnswer, [⟨d.title, d.href, s.loc⟩], [keywordPrompt], false⟩

/-- The fallback double loop: documents in corpus order, sections in order,
returning the first `(doc, sec)` whose section matches. -/
def findSec (ws : List String) : List Doc → Option (Doc × Sec)
  | [] => none
  | d :: ds =>
    match d.sections.find? (secMatches ws) with
    | some s => some (d, s)
    | none => findSec ws ds

/-- The whole `answer` endpoint body after the gate check:
keyword pass (guarded by `any(...) and DOCS`), then the naive overlap
fallback, then the refusal. -/
def resolve (question : String) (docs : List Doc) : Option AnswerResult :=
  if keywordHit (normalize question) && !docs.isEmpty then
    pass1 docs
  else
    match findSec (qWords (normalize question)) docs with
    | some (d, s) =>
      some ⟨s.text.getD defaultAnswer, [⟨d.title, d.href, s.loc⟩],
        [fallbackPrompt], false⟩
    | none => some ⟨refusalAnswer, [], [], true⟩

/-- A week identifier as it appears in the JSON schedule: an integer or a
string, compared for equality only. -/
inductive WeekId
  | int (n : Int)
  | str (s : String)
deriving DecidableEq

/-- Python's `str(week)` as used by the f-string `f"week:{week}"`:
integers render in decimal, strings render verbatim, and an absent value
(`state.get("week")` returning `None`) renders as `None`. -/
def weekLabel : Option WeekId → String
  | none => "None"
  | some (.int n) => toString n
  | some (.str s) => s

/-- One schedule record: `week` may be absent (`w.get("week")`), and
`milestones` defaults to the empty list (`w.get("milestones", [])`). -/
structure WeekRecord where
  week : Option WeekId
  milestones : List String
deriving DecidableEq

/-- One `refs` entry `{"title": _, "loc": _}`. -/
structure Ref where
  title : String
  loc : String
deriving DecidableEq

/-- The `/next` response `{"checklist": _, "refs": _}`. -/
structure ChecklistResult where
  checklist : List String
  refs : List Ref
deriving DecidableEq

/-- The placeholder produced when no milestones are found. -/
def noMilestones : String := "No milestones found for this week."

/-- The `nxt` endpoint body after the gate check: scan `MOCK["weeks"]` in
order, take the first record whose `week` equals the query (`break`),
substitute the placeholder when the result list is empty (`if not items`),
and always emit the single fixed ref. -/
def lookup (week : Option WeekId) (schedule : List WeekRecord) : ChecklistResult :=
  let items :=
    match schedule.find? (fun w => decide (w.week = week)) with
    | some w => w.milestones
    | none => []
  { checklist := if items.isEmpty then [noMilestones] else items,
    refs := [⟨"mock_dates.json", "week:" ++ weekLabel week⟩] }

/-- The `/answer` request model: only `question` is consulted by the
resolution logic; `role`, `context_policy` and `mode` ride along. -/
structure AnswerRequest where
  role : String
  question : String
  context_policy : Option String := some "authoritative_only"
  mode : Option String := some "tutor"
deriving DecidableEq

/-- The `/next` request model.  The code reads the `state` mapping only at
the key `"week"`; `stateWeek` embeds `req.state.get("week")` (absent key =
`none`). -/
structure NextRequest where
  role : String
  stateWeek : Option WeekId
deriving DecidableEq

/-- The only error the endpoints raise themselves: the 503 emitted when the
kill switch is set. -/
inductive GateError
  | serviceUnavailable (detail : String)
deriving DecidableEq

/-- The `/health` response. -/
structure HealthResponse where
  ok : Bool
  service : String
  version : String
deriving DecidableEq

/-- `health()`: never fails, reports `ok = not KILLED`. -/
def health (killed : Bool) : HealthResponse :=
  ⟨!killed, "assistant-backend", "0.1.0"⟩

/-- The `/answer` endpoint: gate check first, then the resolver.  The inner
`Option` carries the resolver's crash possibility. -/
def answerEndpoint (killed : Bool) (req : AnswerRequest) (docs : List Doc) :
    Except GateError (Option AnswerResult) :=
  if killed then .error (.serviceUnavailable "Assistant paused by staff")
  else .ok (resolve req.question docs)

/-- The `/next` endpoint: gate check first, then the lookup. -/
def nextEndpoint (killed : Bool) (req : NextRequest) (schedule : List WeekRecord) :
    Except GateError ChecklistResult :=
  if killed then .error (.serviceUnavailable "Assistant paused by staff")
  else .ok (lookup req.stateWeek schedule)

/-! ### Helper lemmas -/

/-- `find?` returns the first element satisfying the predicate: prepending
non-matching elements before a match leaves that match as the result. -/
theorem find?_append_first {α : Type} (p : α → Bool) (pre post : List α) (a : α)
    (hpre : ∀ x ∈ pre, p x = false) (ha : p a = true) :
    (pre ++ a :: post).find? p = some a := by
  induction pre with
  | nil => simp [List.find?_cons, ha]
  | cons b l ih =>
    have hb : p b = false := hpre b (by simp)
    simp only [List.cons_append, List.find?_cons, hb]
    exact ih (fun x hx => hpre x (by simp [hx]))

/-- If no section of any document matches, the double loop finds nothing. -/
theorem findSec_eq_none (ws : List String) (docs : List Doc)
    (h : ∀ d ∈ docs, ∀ s ∈ d.sections, secMatches ws s = false) :
    findSec ws docs = none := by
  induction docs with
  | nil => rfl
  | cons d ds ih =>
    have hd : d.sections.find? (secMatches ws) = none :=
      List.find?_eq_none.mpr (fun s hs => by simp [h d (by simp) s hs])
    simp only [findSec, hd]
    exact ih (fun d' hd' s hs => h d' (by simp [hd']) s hs)

/-- Documents whose sections all fail the match are skipped by the loop. -/
theorem findSec_append_of_none (ws : List String) (pre rest : List Doc)
    (h : ∀ d ∈ pre, ∀ s ∈ d.sections, secMatches ws s = false) :
    findSec ws (pre ++ rest) = findSec ws rest := by
  induction pre with
  | nil => rfl
  | cons d ds ih =>
    have hd : d.sections.find? (secMatches ws) = none :=
      List.find?_eq_none.mpr (fun s hs => by simp [h d (by simp) s hs])
    simp only [List.cons_append, findSec, hd]
    exact ih (fun d' hd' s hs => h d' (by simp [hd']) s hs)

/-- A document whose section list contains a first match makes the loop
stop at that document and section. -/
theorem findSec_cons_of_some (ws : List String) (d : Doc) (post : List Doc)
    (s : Sec) (h : d.sections.find? (secMatches ws) = some s) :
    findSec ws (d :: post) = some (d, s) := by
  simp [findSec, h]

/-- The section returned by the double loop satisfies the match test. -/
theorem findSec_matches (ws : List String) (docs : List Doc) (d : Doc) (s : Sec) :
    findSec ws docs = some (d, s) → secMatches ws s = true := by
  induction docs with
  | nil => intro h; cases h
  | cons d0 ds ih =>
    intro h
    unfold findSec at h
    cases hf : d0.sections.find? (secMatches ws) with
    | some s0 =>
      rw [hf] at h
      simp only [Option.some.injEq, Prod.mk.injEq] at h
      rw [← h.2]
      exact List.find?_some hf
    | none =>
      rw [hf] at h
      exact ih h

/-- Every filtered question token has length at least 4. -/
theorem qWords_length (q w : String) (hw : w ∈ qWords q) : 4 ≤ w.length := by
  have h := List.mem_filter.mp hw
  exact of_decide_eq_true h.2

/-- Only the empty string occurs inside the empty string. -/
theorem strContains_nil (w : String) (h : strContains "" w = true) : w = "" := by
  cases w with
  | mk data =>
    cases data with
    | nil => rfl
    | cons c cs =>
      have : occursIn (c :: cs) [] = true := h
      simp [occursIn, List.isEmpty] at this

/-- A section that matches some question token has a `text` field: the
absent-text default is the empty string, which contains no length-≥4 token. -/
theorem secMatches_text_some (q : String) (s : Sec)
    (h : secMatches (qWords q) s = true) : ∃ t, s.text = some t := by
  cases hx : s.text with
  | some t => exact ⟨t, rfl⟩
  | none =>
    exfalso
    unfold secMatches at h
    rw [hx] at h
    obtain ⟨w, hw, hcon⟩ := List.any_eq_true.mp h
    have hle := qWords_length q w hw
    have hw0 : w = "" := strContains_nil w (by
      have : lowerStr (Option.getD none "") = "" := rfl
      rwa [this] at hcon)
    rw [hw0] at hle
    simp [String.length] at hle

/-! ### Claim theorems -/

/-- Claim C1, counterexample: the claim quantifies over every non-empty
corpus, but with the keyword question `"due"` and the non-empty corpus
`[{title: "T", href: "H", sections: []}]` the code raises an IndexError at
`doc["sections"][0]` (modelled as `none`) instead of returning the
described keyword answer. -/
theorem c1_counterexample :
    keywordHit (normalize "due") = true ∧
    ([⟨"T", "H", []⟩] : List Doc) ≠ [] ∧
    resolve "due" [⟨"T", "H", []⟩] = none := by
  exact ⟨by decide, by simp, by decide⟩

/-- Claim C1 (amended): for every question whose normalized form contains a
fixed keyword and every corpus whose first document has at least one
section, resolve returns refusal=false, the hard-coded Task 1 / Week 4
answer, and exactly one citation built from the first document's title and
href and its first section's loc. -/
theorem c1_keyword_pass (question ti hr lo : String) (tx : Option String)
    (rest : List Sec) (ds : List Doc)
    (hk : keywordHit (normalize question) = true) :
    resolve question (⟨ti, hr, ⟨lo, tx⟩ :: rest⟩ :: ds) =
      some ⟨keywordAnswer, [⟨ti, hr, lo⟩], [keywordPrompt], false⟩ := by
  unfold resolve
  rw [hk]
  simp [pass1]

/-- Witness for C1: the spec's own example question against a one-document
corpus. -/
theorem c1_keyword_pass_witness :
    resolve "When is Task 1 due?" [⟨"Guide", "/g", [⟨"p.1", some "..."⟩]⟩] =
      some ⟨keywordAnswer, [⟨"Guide", "/g", "p.1"⟩], [keywordPrompt], false⟩ :=
  c1_keyword_pass "When is Task 1 due?" "Guide" "/g" "p.1" (some "...") [] []
    (by decide)

/-- Claim C3: with no keyword match (or an empty corpus, where pass 1's
guard fails even on a keyword match) and no section matching any filtered
question token, resolve returns the fixed refusal: refusal=true, empty
citations, empty prompts. -/
theorem c3_refusal (question : String) (docs : List Doc)
    (hmiss : keywordHit (normalize question) = false ∨ docs = [])
    (hno : ∀ d ∈ docs, ∀ s ∈ d.sections,
      secMatches (qWords (normalize question)) s = false) :
    resolve question docs = some ⟨refusalAnswer, [], [], true⟩ := by
  have hfind : findSec (qWords (normalize question)) docs = none :=
    findSec_eq_none _ _ hno
  unfold resolve
  rcases hmiss with hk | hd
  · rw [hk]
    simp [hfind]
  · subst hd
    simp [hfind]

/-- Witness for C3: the spec's no-match example, the empty question, and a
keyword question against the empty corpus all produce the refusal. -/
theorem c3_refusal_witness :
    resolve "asdf zzzz" [⟨"Guide", "/g", [⟨"p.1", some "..."⟩]⟩] =
      some ⟨refusalAnswer, [], [], true⟩ ∧
    resolve "" [⟨"Guide", "/g", [⟨"p.1", some "anything at all"⟩]⟩] =
      some ⟨refusalAnswer, [], [], true⟩ ∧
    resolve "When is Task 1 due?" [] = some ⟨refusalAnswer, [], [], true⟩ :=
  ⟨c3_refusal _ _ (Or.inl (by decide)) (by decide),
   c3_refusal _ _ (Or.inl (by decide)) (by decide),
   c3_refusal _ _ (Or.inr rfl) (by decide)⟩

/-- Claim C6: the code contradicts the spec's "no other error kinds" rule.
With the gate open, the keyword question `"When is Task 1 due?"` and a
non-empty corpus whose first document has no sections, `answer` raises an
IndexError at `doc["sections"][0]` (modelled as `none`) instead of
returning an AnswerResult. -/
theorem c6_keyword_crash :
    keywordHit (normalize "When is Task 1 due?") = true ∧
    resolve "When is Task 1 due?" [⟨"Guide", "/g", []⟩] = none := by
  decide

/-- Claim C7: with the gate closed both endpoints fail with the
ServiceUnavailable signal "Assistant paused by staff" regardless of the
request or data (the check precedes any data access), while the health
probe is a total function returning ok = NOT gate-closed. -/
theorem c7_gate (req : AnswerRequest) (nreq : NextRequest)
    (docs : List Doc) (schedule : List WeekRecord) (killed : Bool) :
    answerEndpoint true req docs =
      Except.error (GateError.serviceUnavailable "Assistant paused by staff") ∧
    nextEndpoint true nreq schedule =
      Except.error (GateError.serviceUnavailable "Assistant paused by staff") ∧
    (health killed).ok = !killed :=
  ⟨rfl, rfl, rfl⟩

/-- Claim C8: the submit-question outcome depends only on the question
field — requests differing in role, context_policy or mode but sharing the
question produce identical results. -/
theorem c8_question_only (killed : Bool) (docs : List Doc)
    (r1 r2 : AnswerRequest) (hq : r1.question = r2.question) :
    answerEndpoint killed r1 docs = answerEndpoint killed r2 docs := by
  unfold answerEndpoint
  rw [hq]

/-- Witness for C8: two requests differing in role, context_policy and mode
but sharing the question. -/
theorem c8_question_only_witness :
    answerEndpoint false
      ⟨"student", "when is task 1 due?", some "authoritative_only", some "tutor"⟩ [] =
    answerEndpoint false
      ⟨"staff", "when is task 1 due?", some "open_web", some "exam"⟩ [] :=
  c8_question_only false []
    ⟨"student", "when is task 1 due?", some "authoritative_only", some "tutor"⟩
    ⟨"staff", "when is task 1 due?", some "open_web", some "exam"⟩ rfl

/-- Claim C9: resolve is deterministic — the same question against an
unchanged corpus yields identical results. -/
theorem c9_deterministic (q1 q2 : String) (docs1 docs2 : List Doc)
    (hq : q1 = q2) (hd : docs1 = docs2) :
    resolve q1 docs1 = resolve q2 docs2 := by
  rw [hq, hd]

/-- Witness for C9: a concrete repeated call. -/
theorem c9_deterministic_witness :
    resolve "proposal" [⟨"Guide", "/g", [⟨"p.1", some "..."⟩]⟩] =
    resolve "proposal" [⟨"Guide", "/g", [⟨"p.1", some "..."⟩]⟩] :=
  c9_deterministic "proposal" "proposal"
    [⟨"Guide", "/g", [⟨"p.1", some "..."⟩]⟩]
    [⟨"Guide", "/g", [⟨"p.1", some "..."⟩]⟩] rfl rfl

/-- Claim C2: with no keyword match, the fallback scans documents in corpus
order and sections in order and stops at the first section containing some
filtered question token; the answer is that section's text (hence the text
field is present) and the single citation is that document's title/href
with that section's loc — later matches in the same or later documents are
ignored. -/
theorem c2_first_match (question : String) (pre post : List Doc) (d : Doc)
    (spre spost : List Sec) (s : Sec)
    (hnk : keywordHit (normalize question) = false)
    (hsec : d.sections = spre ++ s :: spost)
    (hpre : ∀ d' ∈ pre, ∀ s' ∈ d'.sections,
      secMatches (qWords (normalize question)) s' = false)
    (hspre : ∀ s' ∈ spre, secMatches (qWords (normalize question)) s' = false)
    (hs : secMatches (qWords (normalize question)) s = true) :
    s.text ≠ none ∧
    resolve question (pre ++ d :: post) =
      some ⟨s.text.getD defaultAnswer, [⟨d.title, d.href, s.loc⟩],
        [fallbackPrompt], false⟩ := by
  obtain ⟨t, ht⟩ := secMatches_text_some (normalize question) s hs
  refine ⟨by rw [ht]; simp, ?_⟩
  have hskip :=
    findSec_append_of_none (qWords (normalize question)) pre (d :: post) hpre
  have hfd : d.sections.find? (secMatches (qWords (normalize question))) = some s := by
    rw [hsec]
    exact find?_append_first _ _ _ _ hspre hs
  have hfind : findSec (qWords (normalize question)) (pre ++ d :: post) = some (d, s) := by
    rw [hskip]
    exact findSec_cons_of_some _ _ _ _ hfd
  unfold resolve
  rw [hnk]
  simp [hfind]

/-- Witness for C2: the second section of the second document is the first
match; the matches later in that document and in the third document are
ignored, as is the non-matching first document. -/
theorem c2_first_match_witness :
    (⟨"s2", some "the methodology overview"⟩ : Sec).text ≠ none ∧
    resolve "methodology"
      [⟨"D0", "h0", [⟨"s0", some "nothing here"⟩]⟩,
       ⟨"D1", "h1", [⟨"s1", some "alpha beta"⟩,
         ⟨"s2", some "the methodology overview"⟩,
         ⟨"s3", some "methodology again"⟩]⟩,
       ⟨"D2", "h2", [⟨"s4", some "methodology too"⟩]⟩] =
      some ⟨"the methodology overview", [⟨"D1", "h1", "s2"⟩],
        [fallbackPrompt], false⟩ :=
  c2_first_match "methodology"
    [⟨"D0", "h0", [⟨"s0", some "nothing here"⟩]⟩]
    [⟨"D2", "h2", [⟨"s4", some "methodology too"⟩]⟩]
    ⟨"D1", "h1", [⟨"s1", some "alpha beta"⟩,
      ⟨"s2", some "the methodology overview"⟩,
      ⟨"s3", some "methodology again"⟩]⟩
    [⟨"s1", some "alpha beta"⟩] [⟨"s3", some "methodology again"⟩]
    ⟨"s2", some "the methodology overview"⟩
    (by decide) rfl (by decide) (by decide) (by decide)

/-- Claim C4: the schedule lookup takes the milestones of the first record
whose week equals the query (first match wins), substitutes the fixed
placeholder when no record matches or the matched milestones are empty,
and always emits the single ref with the rendered week identifier. -/
theorem c4_lookup (week : Option WeekId) (schedule : List WeekRecord) :
    (lookup week schedule).refs = [⟨"mock_dates.json", "week:" ++ weekLabel week⟩] ∧
    (∀ pre r post, schedule = pre ++ r :: post →
      (∀ p ∈ pre, p.week ≠ week) → r.week = week →
      (lookup week schedule).checklist =
        if r.milestones.isEmpty then [noMilestones] else r.milestones) ∧
    ((∀ r ∈ schedule, r.week ≠ week) →
      (lookup week schedule).checklist = [noMilestones]) := by
  refine ⟨rfl, ?_, ?_⟩
  · intro pre r post hs hpre hr
    subst hs
    have hfind : (pre ++ r :: post).find? (fun w => decide (w.week = week)) = some r :=
      find?_append_first _ _ _ _ (fun x hx => by simp [hpre x hx]) (by simp [hr])
    simp [lookup, hfind]
  · intro hnone
    have hfind : schedule.find? (fun w => decide (w.week = week)) = none :=
      List.find?_eq_none.mpr (fun x hx => by simp [hnone x hx])
    simp [lookup, hfind]

/-- Claim C10 (implicit): whenever the fallback pass returns, the matched
section's text field is present and the answer is exactly that text — the
`"I can only answer from authorised files."` default for an absent text key
is unreachable, because an absent text lower-cases to the empty string,
which contains no token of length ≥ 4. -/
theorem c10_text_present (question : String) (docs : List Doc) (d : Doc) (s : Sec)
    (hnk : keywordHit (normalize question) = false)
    (hf : findSec (qWords (normalize question)) docs = some (d, s)) :
    s.text ≠ none ∧
    resolve question docs =
      some ⟨s.text.getD defaultAnswer, [⟨d.title, d.href, s.loc⟩],
        [fallbackPrompt], false⟩ := by
  have hs := findSec_matches _ _ _ _ hf
  obtain ⟨t, ht⟩ := secMatches_text_some (normalize question) s hs
  refine ⟨by rw [ht]; simp, ?_⟩
  unfold resolve
  rw [hnk]
  simp [hf]

/-- Witness for C10: a fallback answer whose section carries its text. -/
theorem c10_text_present_witness :
    (⟨"s1", some "supporting evidence here"⟩ : Sec).text ≠ none ∧
    resolve "evidence please" [⟨"Doc", "/d", [⟨"s1", some "supporting evidence here"⟩]⟩] =
      some ⟨"supporting evidence here", [⟨"Doc", "/d", "s1"⟩],
        [fallbackPrompt], false⟩ :=
  c10_text_present "evidence please"
    [⟨"Doc", "/d", [⟨"s1", some "supporting evidence here"⟩]⟩]
    ⟨"Doc", "/d", [⟨"s1", some "supporting evidence here"⟩]⟩
    ⟨"s1", some "supporting evidence here"⟩
    (by decide) (by decide)

/-- Any result the keyword pass produces has refusal=false, a non-empty
citation list and the hard-coded answer. -/
theorem pass1_shape (docs : List Doc) (r : AnswerResult) (h : pass1 docs = some r) :
    r.refusal = false ∧ r.citations ≠ [] ∧ r.answer = keywordAnswer := by
  cases docs with
  | nil => cases h
  | cons d ds =>
    obtain ⟨ti, hr, secs⟩ := d
    cases secs with
    | nil => cases h
    | cons s ss =>
      cases h
      exact ⟨rfl, by simp, rfl⟩

/-- Claim C5, counterexample: the three-way equivalence fails. A section
whose text literally equals the refusal message can be matched by the
fallback pass (question `"authorised"`), producing a result with
refusal=false whose answer nevertheless is the refusal message. -/
theorem c5_counterexample :
    (resolve "authorised" [⟨"T", "H", [⟨"p.1", some refusalAnswer⟩]⟩]).map
      AnswerResult.refusal = some false ∧
    (resolve "authorised" [⟨"T", "H", [⟨"p.1", some refusalAnswer⟩]⟩]).map
      AnswerResult.answer = some refusalAnswer := by
  decide

/-- Claim C5 (amended): every result resolve produces satisfies
refusal=true ⇔ citations empty, and refusal=true implies the answer is the
fixed refusal message (the converse implication can fail when a matched
section's text equals that message). -/
theorem c5_invariant (question : String) (docs : List Doc) (r : AnswerResult)
    (h : resolve question docs = some r) :
    (r.refusal = true ↔ r.citations = []) ∧
    (r.refusal = true → r.answer = refusalAnswer) := by
  unfold resolve at h
  by_cases hc : (keywordHit (normalize question) && !docs.isEmpty) = true
  · rw [if_pos hc] at h
    obtain ⟨href, hcit, _⟩ := pass1_shape docs r h
    rw [href]
    exact ⟨by simp [hcit], by simp⟩
  · rw [if_neg hc] at h
    cases hf : findSec (qWords (normalize question)) docs with
    | some ds =>
      obtain ⟨d, s⟩ := ds
      rw [hf] at h
      cases h
      exact ⟨by simp, by simp⟩
    | none =>
      rw [hf] at h
      cases h
      exact ⟨by simp, fun _ => rfl⟩

/-- Witness for C5: the refusal result itself satisfies the amended
invariant. -/
theorem c5_invariant_witness :
    ((⟨refusalAnswer, [], [], true⟩ : AnswerResult).refusal = true ↔
      (⟨refusalAnswer, [], [], true⟩ : AnswerResult).citations = []) ∧
    ((⟨refusalAnswer, [], [], true⟩ : AnswerResult).refusal = true →
      (⟨refusalAnswer, [], [], true⟩ : AnswerResult).answer = refusalAnswer) :=
  c5_invariant "asdf" [] ⟨refusalAnswer, [], [], true⟩ (by decide)

end Assistant
